import Mathlib

/-!
Shallow embedding of the PhishShield URL scanner core
(`src/components/UrlScanner.tsx`: the richer `analyzeUrl` variant, lines
36-308, together with the input normalisation performed by `handleScan`,
lines 324-327).  String-returning message builders reproduce the source
texts; contractions are expanded to avoid ASCII apostrophes, which none
of the verified properties inspect.  JavaScript regular-expression tests
are embedded as explicit character-list searches with the same matching
semantics on the inputs the scanner receives.
-/

/-- Risk levels, ordered `safe < suspicious < dangerous`. -/
inductive RiskLevel where
  | safe
  | suspicious
  | dangerous
deriving Repr, DecidableEq

/-- Height of a risk level in the three-point lattice. -/
def RiskLevel.toNat : RiskLevel → Nat
  | .safe => 0
  | .suspicious => 1
  | .dangerous => 2

/-- JS `String.prototype.includes`: substring test. -/
def strContains (s pat : String) : Bool :=
  s.data.tails.any (fun t => pat.data.isPrefixOf t)

/-- JS `String.prototype.startsWith`. -/
def strStarts (s pat : String) : Bool :=
  pat.data.isPrefixOf s.data

/-- JS `String.prototype.endsWith`. -/
def strEnds (s pat : String) : Bool :=
  pat.data.isSuffixOf s.data

/-- JS `String.prototype.toLowerCase` (character-wise lowering). -/
def toLowerStr (s : String) : String :=
  String.mk (s.data.map Char.toLower)

/-- Decimal digit characters, as produced by JS number-to-string coercion. -/
def digitCh (d : Nat) : Char :=
  match d with
  | 0 => '0' | 1 => '1' | 2 => '2' | 3 => '3' | 4 => '4'
  | 5 => '5' | 6 => '6' | 7 => '7' | 8 => '8' | _ => '9'

/-- Fueled decimal rendering of a natural number (most significant digit first). -/
def natDigitsAux : Nat → Nat → List Char → List Char
  | 0, _, acc => acc
  | fuel + 1, n, acc =>
    if n < 10 then digitCh n :: acc
    else natDigitsAux fuel (n / 10) (digitCh (n % 10) :: acc)

/-- JS template-literal rendering of a number (`${fullUrl.length}`). -/
def natToStr (n : Nat) : String :=
  String.mk (natDigitsAux (n + 1) n [])

/-- JS `Array.prototype.join(', ')`. -/
def joinComma : List String → String
  | [] => ""
  | [s] => s
  | s :: rest => s ++ ", " ++ joinComma rest

/-- The running state of one scan: the two message lists, the current
risk level and the current (unclamped) score. -/
structure ScanState where
  threats : List String
  warnings : List String
  riskLevel : RiskLevel
  score : Int
deriving Repr, DecidableEq

/-- The three level-mutation idioms found in the source rule set. -/
inductive LevelEffect where
  | toDangerous
  | escSuspicious
  | toSuspicious
deriving Repr, DecidableEq

/-- `toDangerous` embeds `riskLevel = 'dangerous'`; `escSuspicious` embeds
`riskLevel = riskLevel === 'safe' ? 'suspicious' : riskLevel`; `toSuspicious`
embeds the unconditional `riskLevel = 'suspicious'` assignment. -/
def applyLevel : LevelEffect → RiskLevel → RiskLevel
  | .toDangerous, _ => .dangerous
  | .escSuspicious, l => if l = .safe then .suspicious else l
  | .toSuspicious, _ => .suspicious

/-- One rule firing: push a threat, push a warning, mutate the level,
subtract the penalty. -/
def emit (t w : String) (e : LevelEffect) (p : Int) (st : ScanState) : ScanState :=
  { threats := st.threats ++ [t]
    warnings := st.warnings ++ [w]
    riskLevel := applyLevel e st.riskLevel
    score := st.score - p }

/-! ## Normalizer: the `new URL` parse (§4.1)

`analyzeUrl` delegates parsing to the browser `URL` constructor, which is
not part of this repository.  Modelled from the spec: "Parse the result
into scheme/host/path using standard URL parsing.  Fails with
`InvalidUrlError` when the string cannot be parsed as a URL (malformed
syntax, empty host, etc.)".  The model covers the `http`/`https` schemes
the Normalizer produces, splits authority from path/query, rejects empty
hosts and hosts containing forbidden code points (controls, space, and
WHATWG forbidden host characters), and defaults the path to `/`. -/

structure UrlObj where
  protocol : String
  hostname : String
  port : String
  pathname : String
deriving Repr, DecidableEq

/-- Characters that make WHATWG host parsing fail. -/
def forbiddenHostChar (c : Char) : Bool :=
  c.val ≤ 0x20 || c.val == 0x7F ||
    c == '#' || c == '/' || c == ':' || c == '<' || c == '>' || c == '?' ||
    c == '@' || c == '[' || c == '\\' || c == ']' || c == '^' || c == '|' || c == '%'

/-- Parse the part after `scheme://` into host, port and path. -/
def parseAfterScheme (proto : String) (rest : String) : Option UrlObj :=
  let auth := rest.data.takeWhile (fun c => !(c == '/' || c == '?' || c == '#'))
  let tail := rest.data.drop auth.length
  let host := auth.takeWhile (fun c => c != ':')
  let portPart := auth.drop host.length
  let port := if portPart.isEmpty then [] else portPart.drop 1
  if host.isEmpty then none
  else if host.any forbiddenHostChar then none
  else if !(port.all Char.isDigit) then none
  else
    let path := tail.takeWhile (fun c => !(c == '?' || c == '#'))
    some ⟨proto, String.mk host, String.mk port,
          if path.isEmpty then "/" else String.mk path⟩

/-- Model of `new URL(urlToAnalyze)`: `some` parsed parts, or `none` when
the constructor would throw. -/
def parseUrl (s : String) : Option UrlObj :=
  if strStarts s "https://" then parseAfterScheme "https:" (s.drop 8)
  else if strStarts s "http://" then parseAfterScheme "http:" (s.drop 7)
  else none

/-! ## Rule 1: misspellings (lines 51-70) -/

structure MisspellEntry where
  correct : String
  misspelled : List String
deriving Repr, DecidableEq

def commonMisspellings : List MisspellEntry :=
  [⟨"google", ["gooogle", "googel", "gogle", "googl"]⟩,
   ⟨"facebook", ["faceb00k", "facebok", "facebook"]⟩,
   ⟨"paypal", ["payp4l", "paypaI", "paypaII", "paipal"]⟩,
   ⟨"amazon", ["amaz0n", "amazon", "amazone", "amazom"]⟩,
   ⟨"microsoft", ["microsooft", "microsft", "microsofy"]⟩,
   ⟨"apple", ["appIe", "appl3", "aple"]⟩,
   ⟨"netflix", ["netfIix", "netfl1x", "netflixx"]⟩]

def misspellThreat (w c : String) : String :=
  "⚠️ Possible misspelling detected: \"" ++ w ++ "\" (looks like " ++ c ++ ")"

def misspellWarning (c : String) : String :=
  "This URL contains what appears to be a misspelled version of " ++ c ++
    ". Please double-check before proceeding."

def misspellStep (domain : String) (st : ScanState) (e : MisspellEntry) : ScanState :=
  e.misspelled.foldl
    (fun st w =>
      if strContains domain w then
        emit (misspellThreat w e.correct) (misspellWarning e.correct) .toDangerous 70 st
      else st)
    st

def ruleMisspelling (domain : String) (st : ScanState) : ScanState :=
  commonMisspellings.foldl (misspellStep domain) st

/-! ## Rule 2: homograph patterns (lines 73-86) -/

def hasCyrillic (s : String) : Bool :=
  s.data.any (fun c => 0x430 ≤ c.val && c.val ≤ 0x44F)

def greekChars : List Char :=
  ['α', 'β', 'γ', 'δ', 'ε', 'ζ', 'η', 'θ', 'ι', 'κ', 'λ', 'μ',
   'ν', 'ξ', 'ο', 'π', 'ρ', 'σ', 'τ', 'υ', 'φ', 'χ', 'ψ', 'ω']

def hasGreek (s : String) : Bool :=
  s.data.any (fun c => greekChars.contains c)

def hasMathBold (s : String) : Bool :=
  s.data.any (fun c => 0x1D41A ≤ c.val && c.val ≤ 0x1D433)

def homographTests (domain : String) : List Bool :=
  [hasCyrillic domain, hasGreek domain, hasMathBold domain]

def homographThreat : String :=
  "🔍 Homograph attack detected: Non-Latin characters that may mimic legitimate sites"

def homographWarning : String :=
  "This URL uses characters that look similar to regular letters but are not. " ++
    "This is a common trick used by scammers."

def ruleHomograph (domain : String) (st : ScanState) : ScanState :=
  (homographTests domain).foldl
    (fun st b => if b then emit homographThreat homographWarning .toDangerous 80 st else st)
    st

/-! ## Rule 3: missing HTTPS (lines 89-94) -/

def httpsThreat : String := "🔐 No HTTPS encryption detected"

def httpsWarning : String :=
  "This site does not use secure HTTPS encryption. Your data could be intercepted."

def ruleHttps (urlToAnalyze : String) (st : ScanState) : ScanState :=
  if !(strStarts urlToAnalyze "https://") then
    emit httpsThreat httpsWarning .escSuspicious 30 st
  else st

/-! ## Rule 4: suspicious subdomains (lines 97-111) -/

def lowerAlpha (c : Char) : Bool := 'a' ≤ c && c ≤ 'z'

/-- `/pat[a-z]{k,}/` unanchored: `pat` occurs followed by at least `k`
lowercase letters. -/
def patThenLetters (s pat : String) (k : Nat) : Bool :=
  s.data.tails.any (fun t =>
    pat.data.isPrefixOf t &&
      (((t.drop pat.data.length).take k).length == k &&
        ((t.drop pat.data.length).take k).all lowerAlpha))

/-- `/pat[a-z]{k,}\./` unanchored: `pat`, then at least `k` lowercase
letters, then a literal dot (the dot can only follow the maximal run). -/
def patThenLettersDot (s pat : String) (k : Nat) : Bool :=
  s.data.tails.any (fun t =>
    pat.data.isPrefixOf t &&
      (let rest := t.drop pat.data.length
       let run := rest.takeWhile lowerAlpha
       decide (k ≤ run.length) && ((rest.drop run.length).head? == some '.')))

def subBrands : List String := ["google", "facebook", "microsoft", "apple", "amazon", "paypal"]

def subSecureBrands : List String := ["bank", "paypal", "amazon", "microsoft"]

def subdomainTests (domain : String) : List Bool :=
  [subBrands.any (fun b => patThenLetters domain ("login." ++ b ++ ".com.") 2),
   subSecureBrands.any (fun b => patThenLetters domain ("secure." ++ b ++ ".com.") 2),
   subBrands.any (fun b => patThenLettersDot domain (b ++ ".com.") 2),
   subBrands.any (fun b => patThenLettersDot domain ("www." ++ b ++ "-") 1)]

def subdomainThreat : String := "🌐 Suspicious subdomain structure detected"

def subdomainWarning : String :=
  "This URL appears to mimic a legitimate site using fake subdomains. " ++
    "Real companies do not structure their URLs this way."

def ruleSubdomain (domain : String) (st : ScanState) : ScanState :=
  (subdomainTests domain).foldl
    (fun st b => if b then emit subdomainThreat subdomainWarning .toDangerous 75 st else st)
    st

/-! ## Rule 5: excessive length / obfuscation (lines 114-122) -/

def isHexChar (c : Char) : Bool :=
  ('0' ≤ c && c ≤ '9') || ('a' ≤ c && c ≤ 'f')

/-- Count the maximal runs of hex characters of length at least 8:
the number of matches of `/[0-9a-f]{8,}/g`. -/
def hexRunCountAux : List Char → Nat → Nat → Nat
  | [], run, acc => if 8 ≤ run then acc + 1 else acc
  | c :: rest, run, acc =>
    if isHexChar c then hexRunCountAux rest (run + 1) acc
    else hexRunCountAux rest 0 (if 8 ≤ run then acc + 1 else acc)

def hexRunCount (s : String) : Nat := hexRunCountAux s.data 0 0

def lengthThreat (n : Nat) : String :=
  "🧩 Unusually long or obfuscated URL detected (" ++ natToStr n ++ " characters)"

def lengthWarning : String :=
  "This URL is unusually long and may be trying to hide its true destination."

def ruleLength (fullUrl : String) (st : ScanState) : ScanState :=
  if 100 < fullUrl.length then
    if 2 < hexRunCount fullUrl || 200 < fullUrl.length then
      emit (lengthThreat fullUrl.length) lengthWarning .escSuspicious 25 st
    else st
  else st

/-! ## Rule 7: open redirects (lines 125-141) -/

/-- Characters matched by an (unflagged) JS regex `.`. -/
def dotChar (c : Char) : Bool :=
  !(c.val == 10 || c.val == 13 || c.val == 0x2028 || c.val == 0x2029)

/-- `/a.*b/` test: an occurrence of `a`, then any run of `.`-matching
characters, then an occurrence of `b`. -/
def seqDotSeq (s a b : String) : Bool :=
  s.data.tails.any (fun t =>
    a.data.isPrefixOf t &&
      (let rest := t.drop a.data.length
       (List.range (rest.length + 1)).any (fun k =>
         (rest.take k).all dotChar && b.data.isPrefixOf (rest.drop k))))

def redirectTests (fullUrl : String) : List Bool :=
  [seqDotSeq fullUrl "redirect" "url=",
   seqDotSeq fullUrl "goto" "url=",
   seqDotSeq fullUrl "link" "to=",
   seqDotSeq fullUrl "forward" "to=",
   strContains fullUrl "r.php?",
   strContains fullUrl "go.php?"]

def redirectThreat : String := "⛔ Potential open redirect detected"

def redirectWarning : String :=
  "This URL appears to redirect users to another site, which could be used " ++
    "to mask malicious destinations."

def ruleRedirect (fullUrl : String) (st : ScanState) : ScanState :=
  (redirectTests fullUrl).foldl
    (fun st b => if b then emit redirectThreat redirectWarning .toSuspicious 40 st else st)
    st

/-! ## Rule 8: new-domain indicators (lines 144-157) -/

def hasDigitRun (s : String) (k : Nat) : Bool :=
  s.data.tails.any (fun t => (t.take k).length == k && (t.take k).all Char.isDigit)

def newDomainTests (domain : String) : List Bool :=
  [hasDigitRun domain 4,
   strContains domain "temp" || strContains domain "test" ||
     strContains domain "demo" || strContains domain "staging",
   strContains domain "new" || strContains domain "fresh" || strContains domain "latest"]

def newDomainThreat : String := "🗓️ Possible recently registered domain"

def newDomainWarning : String :=
  "This domain shows signs of being newly registered, which is common with scam sites."

def ruleNewDomain (domain : String) (st : ScanState) : ScanState :=
  (newDomainTests domain).foldl
    (fun st b => if b then emit newDomainThreat newDomainWarning .escSuspicious 20 st else st)
    st

/-! ## Rule 9: file-download indicators (lines 160-174) -/

def downloadExts : List String :=
  [".exe", ".zip", ".rar", ".bat", ".scr", ".pif", ".com", ".jar"]

def downloadTests (fullUrl : String) : List Bool :=
  [downloadExts.any (fun e => strEnds fullUrl e),
   seqDotSeq fullUrl "download" "file",
   seqDotSeq fullUrl "update" "exe",
   seqDotSeq fullUrl "install" "now"]

def downloadThreat : String := "📥 Potential file download detected"

def downloadWarning : String :=
  "This URL may automatically download files to your computer, which could be dangerous."

def ruleDownload (fullUrl : String) (st : ScanState) : ScanState :=
  (downloadTests fullUrl).foldl
    (fun st b => if b then emit downloadThreat downloadWarning .toDangerous 60 st else st)
    st

/-! ## Brand impersonation (lines 177-202) -/

structure BrandPattern where
  brand : String
  legitimate : List String
  severity : Int
deriving Repr, DecidableEq

def brandPatterns : List BrandPattern :=
  [⟨"paypal", ["paypal.com", "paypal.co.uk", "paypal.ca", "paypal.de", "paypal.fr"], 60⟩,
   ⟨"amazon", ["amazon.com", "amazon.co.uk", "amazon.de", "amazon.fr", "amazon.ca",
               "amazon.in", "amazon.jp"], 55⟩,
   ⟨"microsoft", ["microsoft.com", "live.com", "outlook.com", "hotmail.com", "xbox.com"], 50⟩,
   ⟨"google", ["google.com", "gmail.com", "youtube.com", "google.co.uk", "google.de",
               "google.fr"], 50⟩,
   ⟨"apple", ["apple.com", "icloud.com", "mac.com", "me.com"], 55⟩,
   ⟨"facebook", ["facebook.com", "fb.com", "meta.com", "instagram.com", "whatsapp.com"], 45⟩,
   ⟨"netflix", ["netflix.com"], 40⟩,
   ⟨"spotify", ["spotify.com"], 35⟩,
   ⟨"linkedin", ["linkedin.com"], 40⟩,
   ⟨"twitter", ["twitter.com", "x.com"], 40⟩]

/-- `charAt(0).toUpperCase() + slice(1)`. -/
def capFirst (s : String) : String :=
  match s.data with
  | [] => ""
  | c :: rest => String.mk (c.toUpper :: rest)

def brandLegit (domain : String) (b : BrandPattern) : Bool :=
  b.legitimate.any (fun lg => domain == lg || strEnds domain ("." ++ lg))

def brandFires (domain : String) (b : BrandPattern) : Bool :=
  strContains domain b.brand && !(brandLegit domain b)

def brandThreat (brand : String) : String :=
  "🥷 Possible " ++ capFirst brand ++ " impersonation"

def brandWarning (brand : String) : String :=
  "This URL appears to impersonate " ++ brand ++
    " but is not the real website. Always verify URLs carefully."

def ruleBrand (domain : String) (st : ScanState) : ScanState :=
  brandPatterns.foldl
    (fun st b =>
      if brandFires domain b then
        emit (brandThreat b.brand) (brandWarning b.brand) .toDangerous b.severity st
      else st)
    st

/-! ## Rule 13: suspicious TLDs (lines 205-220, first match only) -/

def suspiciousTlds : List String :=
  [".tk", ".ml", ".ga", ".cf", ".pw", ".top", ".click", ".download", ".stream",
   ".science", ".work", ".party", ".date", ".racing", ".review", ".faith",
   ".cricket", ".win", ".bid", ".loan", ".trade", ".accountant", ".men",
   ".xyz", ".club", ".online", ".site", ".website", ".space"]

def tldThreat (tld : String) : String := "🧪 High-risk domain extension: " ++ tld

def tldWarning (tld : String) : String :=
  "This website uses a domain extension (" ++ tld ++
    ") that is commonly associated with spam and malicious sites."

def ruleTld (domain : String) (st : ScanState) : ScanState :=
  match suspiciousTlds.find? (fun t => strEnds domain t) with
  | some t => emit (tldThreat t) (tldWarning t) .escSuspicious 25 st
  | none => st

/-! ## URL shorteners (lines 223-237, first match only) -/

def urlShorteners : List String :=
  ["bit.ly", "tinyurl.com", "t.co", "short.link", "goo.gl", "ow.ly",
   "is.gd", "buff.ly", "adf.ly", "bl.ink", "lnkd.in", "tiny.cc",
   "rb.gy", "shorturl.at", "cutt.ly", "bitly.com"]

def shortenerThreat : String := "🔗 URL shortener detected - destination hidden"

def shortenerWarning : String :=
  "This is a shortened URL that hides the real destination. " ++
    "Be cautious as you cannot see where it actually leads."

def ruleShortener (domain : String) (st : ScanState) : ScanState :=
  match urlShorteners.find? (fun sh => strContains domain sh) with
  | some _ => emit shortenerThreat shortenerWarning .escSuspicious 20 st
  | none => st

/-! ## Phishing keywords (lines 240-257) -/

def phishingKeywords : List String :=
  ["verify", "secure", "account", "update", "confirm", "login", "signin",
   "security", "suspended", "limited", "unusual", "activity", "locked",
   "billing", "payment", "invoice", "refund", "claim", "winner",
   "congratulations", "urgent", "immediate", "action", "required",
   "suspended", "violation", "expire", "expiry"]

def foundKeywords (domain pathLower : String) : List String :=
  phishingKeywords.filter (fun k => strContains domain k || strContains pathLower k)

def keywordThreat (found : List String) : String :=
  "🚨 Multiple urgent keywords detected: " ++ joinComma (found.take 3)

def keywordWarning : String :=
  "This URL contains multiple words designed to create urgency or fear. " ++
    "Legitimate companies rarely use such tactics."

def ruleKeywords (domain pathLower : String) (st : ScanState) : ScanState :=
  if 2 ≤ (foundKeywords domain pathLower).length then
    emit (keywordThreat (foundKeywords domain pathLower)) keywordWarning .toDangerous 50 st
  else st

/-! ## IP-literal host (lines 260-265) -/

/-- One step of `/^\d+\.\d+\.\d+\.\d+/`: strip `\d+\.`. -/
def digitsDot (l : List Char) : Option (List Char) :=
  let ds := l.takeWhile Char.isDigit
  if ds.isEmpty then none
  else
    match l.drop ds.length with
    | '.' :: rest => some rest
    | _ => none

def ipTest (domain : String) : Bool :=
  match digitsDot domain.data with
  | none => false
  | some r1 =>
    match digitsDot r1 with
    | none => false
    | some r2 =>
      match digitsDot r2 with
      | none => false
      | some r3 => !(r3.takeWhile Char.isDigit).isEmpty

def ipThreat : String := "🌐 IP address instead of domain name"

def ipWarning : String :=
  "This URL uses an IP address instead of a proper domain name, " ++
    "which is unusual for legitimate websites."

def ruleIp (domain : String) (st : ScanState) : ScanState :=
  if ipTest domain then emit ipThreat ipWarning .toSuspicious 35 st else st

/-! ## Punycode host (lines 268-273) -/

def punycodeThreat : String := "🔍 Punycode domain detected (possible spoofing)"

def punycodeWarning : String :=
  "This URL uses special encoding that could be hiding its true appearance. " ++
    "This is sometimes used for spoofing."

def rulePunycode (domain : String) (st : ScanState) : ScanState :=
  if strContains domain "xn--" then
    emit punycodeThreat punycodeWarning .toSuspicious 40 st
  else st

/-! ## Aggregation (lines 40-48, 275-307) -/

def invalidThreat : String := "❌ Invalid URL format"

def invalidWarning : String := "This URL format appears to be invalid or malformed."

def noThreatMsg : String := "✅ No obvious threats detected"

def noThreatWarning : String :=
  "This URL appears to be safe, but always exercise caution when clicking links."

def initState : ScanState := ⟨[], [], .safe, 100⟩

/-- The rule battery, in source order, as state transformers. -/
def battery (urlToAnalyze domain fullUrl pathLower : String) :
    List (ScanState → ScanState) :=
  [ruleMisspelling domain, ruleHomograph domain, ruleHttps urlToAnalyze,
   ruleSubdomain domain, ruleLength fullUrl, ruleRedirect fullUrl,
   ruleNewDomain domain, ruleDownload fullUrl, ruleBrand domain,
   ruleTld domain, ruleShortener domain, ruleKeywords domain pathLower,
   ruleIp domain, rulePunycode domain]

/-- Run the first `k` rules of the battery from the seed state. -/
def runPrefix (urlToAnalyze : String) (o : UrlObj) (k : Nat) : ScanState :=
  ((battery urlToAnalyze (toLowerStr o.hostname) (toLowerStr urlToAnalyze)
      (toLowerStr o.pathname)).take k).foldl (fun st f => f st) initState

/-- `score = Math.max(0, score)` (line 275). -/
def clampScore (st : ScanState) : ScanState :=
  { st with score := max 0 st.score }

/-- Lines 284-287: the sentinel pair appended when no rule fired. -/
def addSentinel (st : ScanState) : ScanState :=
  if st.threats.length == 0 then
    { st with threats := st.threats ++ [noThreatMsg],
              warnings := st.warnings ++ [noThreatWarning] }
  else st

/-- The classification part of `analyzeUrl`: parse, run the battery (or
take the catch branch), clamp, add the sentinel. -/
def finalState (urlToAnalyze : String) : ScanState :=
  match parseUrl urlToAnalyze with
  | some o =>
    addSentinel (clampScore
      ((battery urlToAnalyze (toLowerStr o.hostname) (toLowerStr urlToAnalyze)
          (toLowerStr o.pathname)).foldl (fun st f => f st) initState))
  | none => addSentinel ⟨[invalidThreat], [invalidWarning], .suspicious, 30⟩

/-- Threat-message test used for `details.typosquatting` (line 299). -/
def hasTypoMark (t : String) : Bool :=
  strContains t "typosquatting" || strContains t "impersonation"

structure ScanDetails where
  domainAge : String
  ssl : Bool
  reputation : String
  typosquatting : Bool
  redirects : Nat
  contentType : String
  geoLocation : String
  registrar : String
  dnsRecords : String
  securityHeaders : String
deriving Repr, DecidableEq

structure ScanResult where
  url : String
  riskLevel : RiskLevel
  score : Int
  threats : List String
  warnings : List String
  details : ScanDetails
deriving Repr, DecidableEq

def geoChoices : List String := ["US", "CN", "RU", "Unknown"]

/-- `analyzeUrl` (lines 36-308).  The two `Math.random()` draws feeding
`details.redirects` and `details.geoLocation` are injected as the
arguments `rRedir` and `rGeo`. -/
def analyzeUrl (rRedir rGeo : Nat) (urlToAnalyze : String) : ScanResult :=
  let st := finalState urlToAnalyze
  { url := urlToAnalyze
    riskLevel := st.riskLevel
    score := st.score
    threats := st.threats
    warnings := st.warnings
    details :=
      { domainAge :=
          if 80 < st.score then "Established (>1 year)"
          else if 50 < st.score then "Moderate (6-12 months)"
          else "New/Unknown (<6 months)"
        ssl := strStarts urlToAnalyze "https://"
        reputation :=
          if 80 < st.score then "Excellent"
          else if 60 < st.score then "Good"
          else if 40 < st.score then "Moderate"
          else if 20 < st.score then "Poor"
          else "Critical"
        typosquatting := st.threats.any hasTypoMark
        redirects := rRedir % 3
        contentType :=
          if strContains urlToAnalyze ".php" then "Dynamic (PHP)" else "Static/Unknown"
        geoLocation := geoChoices.getD (rGeo % 4) "Unknown"
        registrar := if 70 < st.score then "Trusted" else "Unknown/Suspicious"
        dnsRecords := if 60 < st.score then "Valid" else "Suspicious/Missing"
        securityHeaders :=
          if strStarts urlToAnalyze "https://" && 70 < st.score then "Present"
          else "Missing/Weak" } }

/-- Characters removed by JS `String.prototype.trim`. -/
def jsWhitespace (c : Char) : Bool :=
  c == ' ' || c == '\t' || c == '\n' || c == '\r' ||
    c.val == 0x0B || c.val == 0x0C || c.val == 0xA0 || c.val == 0xFEFF ||
    c.val == 0x2028 || c.val == 0x2029

/-- Model of JS `String.prototype.trim` (`url.trim()`, line 324). -/
def strTrim (s : String) : String :=
  String.mk (((s.data.dropWhile jsWhitespace).reverse.dropWhile jsWhitespace).reverse)

/-- The input normalisation of `handleScan` (lines 324-327). -/
def normalizeInput (s : String) : String :=
  if !(strStarts (strTrim s) "http://") && !(strStarts (strTrim s) "https://") then
    "https://" ++ strTrim s
  else strTrim s

/-- The single entry point `scan(rawUrl)` of §6: normalise, then analyse. -/
def scan (rRedir rGeo : Nat) (rawUrl : String) : ScanResult :=
  analyzeUrl rRedir rGeo (normalizeInput rawUrl)

/-- A state whose threat and warning lists are positionally aligned. -/
def balanced (st : ScanState) : Prop := st.threats.length = st.warnings.length

def decimalDigits : List Char := ['0', '1', '2', '3', '4', '5', '6', '7', '8', '9']

/-! ## Generic lemmas about the aggregation combinators -/

theorem emit_score (t w : String) (e : LevelEffect) (p : Int) (st : ScanState) :
    (emit t w e p st).score = st.score - p := rfl

theorem emit_threats (t w : String) (e : LevelEffect) (p : Int) (st : ScanState) :
    (emit t w e p st).threats = st.threats ++ [t] := rfl

theorem emit_warnings (t w : String) (e : LevelEffect) (p : Int) (st : ScanState) :
    (emit t w e p st).warnings = st.warnings ++ [w] := rfl

theorem applyLevel_toDangerous_mono (l : RiskLevel) :
    l.toNat ≤ (applyLevel .toDangerous l).toNat := by
  cases l <;> decide

theorem applyLevel_esc_mono (l : RiskLevel) :
    l.toNat ≤ (applyLevel .escSuspicious l).toNat := by
  cases l <;> decide

theorem condEmit_score_le (c : Bool) (t w : String) (e : LevelEffect) (p : Int)
    (hp : 0 ≤ p) (st : ScanState) :
    (if c then emit t w e p st else st).score ≤ st.score := by
  cases c
  · exact le_refl _
  · simp only [if_pos, emit_score, ite_true]
    omega

theorem condEmit_balanced (c : Bool) (t w : String) (e : LevelEffect) (p : Int)
    (st : ScanState) (h : st.threats.length = st.warnings.length) :
    (if c then emit t w e p st else st).threats.length =
      (if c then emit t w e p st else st).warnings.length := by
  cases c <;> simp [emit, h]

theorem condEmit_mono (c : Bool) (t w : String) (e : LevelEffect) (p : Int) (st : ScanState)
    (he : ∀ l : RiskLevel, l.toNat ≤ (applyLevel e l).toNat) :
    st.riskLevel.toNat ≤ (if c then emit t w e p st else st).riskLevel.toNat := by
  cases c
  · exact le_refl _
  · simpa [emit] using he st.riskLevel

theorem condEmit_anyTypo (c : Bool) (t w : String) (e : LevelEffect) (p : Int)
    (st : ScanState) (ht : hasTypoMark t = false) :
    (if c then emit t w e p st else st).threats.any hasTypoMark =
      st.threats.any hasTypoMark := by
  cases c
  · rfl
  · simp [emit, ht]

theorem foldl_score_le {α : Type} (f : ScanState → α → ScanState) :
    ∀ (l : List α), (∀ st a, a ∈ l → (f st a).score ≤ st.score) →
      ∀ st, (l.foldl f st).score ≤ st.score
  | [], _, _ => le_refl _
  | a :: l, h, st =>
    le_trans
      (foldl_score_le f l (fun st b hb => h st b (List.mem_cons_of_mem a hb)) (f st a))
      (h st a (List.mem_cons_self a l))

theorem foldl_pres {α : Type} (P : ScanState → Prop) (f : ScanState → α → ScanState) :
    ∀ (l : List α), (∀ st a, a ∈ l → P st → P (f st a)) → ∀ st, P st → P (l.foldl f st)
  | [], _, _, hP => hP
  | a :: l, h, st, hP =>
    foldl_pres P f l (fun st b hb => h st b (List.mem_cons_of_mem a hb)) (f st a)
      (h st a (List.mem_cons_self a l) hP)

theorem foldl_eq_measure {α β : Type} (m : ScanState → β) (f : ScanState → α → ScanState) :
    ∀ (l : List α), (∀ st a, a ∈ l → m (f st a) = m st) → ∀ st, m (l.foldl f st) = m st
  | [], _, _ => rfl
  | a :: l, h, st =>
    (foldl_eq_measure m f l (fun st b hb => h st b (List.mem_cons_of_mem a hb)) (f st a)).trans
      (h st a (List.mem_cons_self a l))

theorem foldl_mono_level {α : Type} (f : ScanState → α → ScanState) :
    ∀ (l : List α), (∀ st a, a ∈ l → st.riskLevel.toNat ≤ (f st a).riskLevel.toNat) →
      ∀ st, st.riskLevel.toNat ≤ (l.foldl f st).riskLevel.toNat
  | [], _, _ => le_refl _
  | a :: l, h, st =>
    le_trans (h st a (List.mem_cons_self a l))
      (foldl_mono_level f l (fun st b hb => h st b (List.mem_cons_of_mem a hb)) (f st a))

/-! ## Per-rule lemmas: score never increases -/

theorem misspellStep_score (d : String) (st : ScanState) (e : MisspellEntry) :
    (misspellStep d st e).score ≤ st.score :=
  foldl_score_le _ _ (fun st w _ => condEmit_score_le _ _ _ _ _ (by norm_num) st) st

theorem ruleMisspelling_score (d : String) (st : ScanState) :
    (ruleMisspelling d st).score ≤ st.score :=
  foldl_score_le _ _ (fun st e _ => misspellStep_score d st e) st

theorem ruleHomograph_score (d : String) (st : ScanState) :
    (ruleHomograph d st).score ≤ st.score :=
  foldl_score_le _ _ (fun st b _ => condEmit_score_le b _ _ _ _ (by norm_num) st) st

theorem ruleHttps_score (u : String) (st : ScanState) :
    (ruleHttps u st).score ≤ st.score :=
  condEmit_score_le _ _ _ _ _ (by norm_num) st

theorem ruleSubdomain_score (d : String) (st : ScanState) :
    (ruleSubdomain d st).score ≤ st.score :=
  foldl_score_le _ _ (fun st b _ => condEmit_score_le b _ _ _ _ (by norm_num) st) st

theorem ruleLength_score (f : String) (st : ScanState) :
    (ruleLength f st).score ≤ st.score := by
  unfold ruleLength
  split
  · split
    · simp only [emit_score]; omega
    · exact le_refl _
  · exact le_refl _

theorem ruleRedirect_score (f : String) (st : ScanState) :
    (ruleRedirect f st).score ≤ st.score :=
  foldl_score_le _ _ (fun st b _ => condEmit_score_le b _ _ _ _ (by norm_num) st) st

theorem ruleNewDomain_score (d : String) (st : ScanState) :
    (ruleNewDomain d st).score ≤ st.score :=
  foldl_score_le _ _ (fun st b _ => condEmit_score_le b _ _ _ _ (by norm_num) st) st

theorem ruleDownload_score (f : String) (st : ScanState) :
    (ruleDownload f st).score ≤ st.score :=
  foldl_score_le _ _ (fun st b _ => condEmit_score_le b _ _ _ _ (by norm_num) st) st

theorem brandPatterns_severity_nonneg : ∀ b ∈ brandPatterns, 0 ≤ b.severity := by
  decide

theorem ruleBrand_score (d : String) (st : ScanState) :
    (ruleBrand d st).score ≤ st.score :=
  foldl_score_le _ _
    (fun st b hb => condEmit_score_le _ _ _ _ _ (brandPatterns_severity_nonneg b hb) st) st

theorem ruleTld_score (d : String) (st : ScanState) :
    (ruleTld d st).score ≤ st.score := by
  unfold ruleTld
  split
  · simp only [emit_score]; omega
  · exact le_refl _

theorem ruleShortener_score (d : String) (st : ScanState) :
    (ruleShortener d st).score ≤ st.score := by
  unfold ruleShortener
  split
  · simp only [emit_score]; omega
  · exact le_refl _

theorem ruleKeywords_score (d p : String) (st : ScanState) :
    (ruleKeywords d p st).score ≤ st.score := by
  unfold ruleKeywords
  split
  · simp only [emit_score]; omega
  · exact le_refl _

theorem ruleIp_score (d : String) (st : ScanState) :
    (ruleIp d st).score ≤ st.score :=
  condEmit_score_le _ _ _ _ _ (by norm_num) st

theorem rulePunycode_score (d : String) (st : ScanState) :
    (rulePunycode d st).score ≤ st.score :=
  condEmit_score_le _ _ _ _ _ (by norm_num) st

theorem battery_score_le (u d f p : String) :
    ∀ g ∈ battery u d f p, ∀ st : ScanState, (g st).score ≤ st.score := by
  intro g hg st
  simp only [battery, List.mem_cons, List.not_mem_nil, or_false] at hg
  rcases hg with h|h|h|h|h|h|h|h|h|h|h|h|h|h <;> subst h
  · exact ruleMisspelling_score d st
  · exact ruleHomograph_score d st
  · exact ruleHttps_score u st
  · exact ruleSubdomain_score d st
  · exact ruleLength_score f st
  · exact ruleRedirect_score f st
  · exact ruleNewDomain_score d st
  · exact ruleDownload_score f st
  · exact ruleBrand_score d st
  · exact ruleTld_score d st
  · exact ruleShortener_score d st
  · exact ruleKeywords_score d p st
  · exact ruleIp_score d st
  · exact rulePunycode_score d st

theorem addSentinel_score (st : ScanState) : (addSentinel st).score = st.score := by
  unfold addSentinel
  split <;> rfl

theorem addSentinel_riskLevel (st : ScanState) :
    (addSentinel st).riskLevel = st.riskLevel := by
  unfold addSentinel
  split <;> rfl

/-! ## Per-rule lemmas: threats and warnings stay aligned -/

theorem condEmit_keeps_balanced (c : Bool) (t w : String) (e : LevelEffect) (p : Int)
    (st : ScanState) (h : balanced st) : balanced (if c then emit t w e p st else st) := by
  cases c
  · exact h
  · simpa [balanced, emit] using h

theorem misspellStep_balanced (d : String) (st : ScanState) (e : MisspellEntry)
    (h : balanced st) : balanced (misspellStep d st e) :=
  foldl_pres balanced _ _ (fun st w _ hb => condEmit_keeps_balanced _ _ _ _ _ st hb) st h

theorem ruleMisspelling_balanced (d : String) (st : ScanState) (h : balanced st) :
    balanced (ruleMisspelling d st) :=
  foldl_pres balanced _ _ (fun st e _ hb => misspellStep_balanced d st e hb) st h

theorem ruleHomograph_balanced (d : String) (st : ScanState) (h : balanced st) :
    balanced (ruleHomograph d st) :=
  foldl_pres balanced _ _ (fun st b _ hb => condEmit_keeps_balanced b _ _ _ _ st hb) st h

theorem ruleHttps_balanced (u : String) (st : ScanState) (h : balanced st) :
    balanced (ruleHttps u st) :=
  condEmit_keeps_balanced _ _ _ _ _ st h

theorem ruleSubdomain_balanced (d : String) (st : ScanState) (h : balanced st) :
    balanced (ruleSubdomain d st) :=
  foldl_pres balanced _ _ (fun st b _ hb => condEmit_keeps_balanced b _ _ _ _ st hb) st h

theorem ruleLength_balanced (f : String) (st : ScanState) (h : balanced st) :
    balanced (ruleLength f st) := by
  unfold ruleLength
  split
  · split
    · simpa [balanced, emit] using h
    · exact h
  · exact h

theorem ruleRedirect_balanced (f : String) (st : ScanState) (h : balanced st) :
    balanced (ruleRedirect f st) :=
  foldl_pres balanced _ _ (fun st b _ hb => condEmit_keeps_balanced b _ _ _ _ st hb) st h

theorem ruleNewDomain_balanced (d : String) (st : ScanState) (h : balanced st) :
    balanced (ruleNewDomain d st) :=
  foldl_pres balanced _ _ (fun st b _ hb => condEmit_keeps_balanced b _ _ _ _ st hb) st h

theorem ruleDownload_balanced (f : String) (st : ScanState) (h : balanced st) :
    balanced (ruleDownload f st) :=
  foldl_pres balanced _ _ (fun st b _ hb => condEmit_keeps_balanced b _ _ _ _ st hb) st h

theorem ruleBrand_balanced (d : String) (st : ScanState) (h : balanced st) :
    balanced (ruleBrand d st) :=
  foldl_pres balanced _ _ (fun st b _ hb => condEmit_keeps_balanced _ _ _ _ _ st hb) st h

theorem ruleTld_balanced (d : String) (st : ScanState) (h : balanced st) :
    balanced (ruleTld d st) := by
  unfold ruleTld
  split
  · simpa [balanced, emit] using h
  · exact h

theorem ruleShortener_balanced (d : String) (st : ScanState) (h : balanced st) :
    balanced (ruleShortener d st) := by
  unfold ruleShortener
  split
  · simpa [balanced, emit] using h
  · exact h

theorem ruleKeywords_balanced (d p : String) (st : ScanState) (h : balanced st) :
    balanced (ruleKeywords d p st) := by
  unfold ruleKeywords
  split
  · simpa [balanced, emit] using h
  · exact h

theorem ruleIp_balanced (d : String) (st : ScanState) (h : balanced st) :
    balanced (ruleIp d st) :=
  condEmit_keeps_balanced _ _ _ _ _ st h

theorem rulePunycode_balanced (d : String) (st : ScanState) (h : balanced st) :
    balanced (rulePunycode d st) :=
  condEmit_keeps_balanced _ _ _ _ _ st h

theorem battery_balanced (u d f p : String) :
    ∀ g ∈ battery u d f p, ∀ st : ScanState, balanced st → balanced (g st) := by
  intro g hg st hb
  simp only [battery, List.mem_cons, List.not_mem_nil, or_false] at hg
  rcases hg with h|h|h|h|h|h|h|h|h|h|h|h|h|h <;> subst h
  · exact ruleMisspelling_balanced d st hb
  · exact ruleHomograph_balanced d st hb
  · exact ruleHttps_balanced u st hb
  · exact ruleSubdomain_balanced d st hb
  · exact ruleLength_balanced f st hb
  · exact ruleRedirect_balanced f st hb
  · exact ruleNewDomain_balanced d st hb
  · exact ruleDownload_balanced f st hb
  · exact ruleBrand_balanced d st hb
  · exact ruleTld_balanced d st hb
  · exact ruleShortener_balanced d st hb
  · exact ruleKeywords_balanced d p st hb
  · exact ruleIp_balanced d st hb
  · exact rulePunycode_balanced d st hb

theorem clampScore_balanced (st : ScanState) (h : balanced st) :
    balanced (clampScore st) := h

theorem clampScore_score (st : ScanState) : (clampScore st).score = max 0 st.score := rfl

theorem addSentinel_balanced (st : ScanState) (h : balanced st) :
    balanced (addSentinel st) := by
  unfold addSentinel
  split
  · simpa [balanced] using h
  · exact h

/-! ## Claim C9 -/

/-- C9: in every `ScanResult` returned by `analyzeUrl`, the `threats` and
`warnings` sequences have the same length (every rule firing, the
no-threat sentinel and the parse-failure fallback each append exactly one
threat and one warning). -/
theorem c9_threats_warnings_balanced (rR rG : Nat) (u : String) :
    (analyzeUrl rR rG u).threats.length = (analyzeUrl rR rG u).warnings.length := by
  show balanced (finalState u)
  unfold finalState
  cases hp : parseUrl u with
  | none => exact rfl
  | some o =>
    apply addSentinel_balanced
    apply clampScore_balanced
    exact foldl_pres balanced _ _
      (fun st g hg hb => battery_balanced _ _ _ _ g hg st hb) initState rfl

/-! ## Claim C3 -/

/-- C3: for every input, the returned `score` lies in `[0, 100]`: seeded
at 100, lowered by non-negative penalties, clamped at 0, and equal to 30
on the parse-failure path. -/
theorem c3_score_bounds (rR rG : Nat) (u : String) :
    0 ≤ (analyzeUrl rR rG u).score ∧ (analyzeUrl rR rG u).score ≤ 100 := by
  show 0 ≤ (finalState u).score ∧ (finalState u).score ≤ 100
  unfold finalState
  cases hp : parseUrl u with
  | none => exact (by decide : (0 : Int) ≤ 30 ∧ (30 : Int) ≤ 100)
  | some o =>
    rw [addSentinel_score, clampScore_score]
    refine ⟨le_max_left 0 _, max_le (by norm_num) ?_⟩
    have h := foldl_score_le (fun st (g : ScanState → ScanState) => g st)
      (battery u (toLowerStr o.hostname) (toLowerStr u) (toLowerStr o.pathname))
      (fun st g hg => battery_score_le _ _ _ _ g hg st) initState
    simpa [initState] using h

/-! ## Claim C8 -/

/-- C8: the classification is a deterministic function of the input
string: two scans of the same string agree on `riskLevel`, `score`,
`threats` and `warnings`, whatever the two injected random draws are
(only `details.redirects` and `details.geoLocation` consume them). -/
theorem c8_deterministic (r1 r2 r1' r2' : Nat) (u : String) :
    (scan r1 r2 u).riskLevel = (scan r1' r2' u).riskLevel ∧
      (scan r1 r2 u).score = (scan r1' r2' u).score ∧
      (scan r1 r2 u).threats = (scan r1' r2' u).threats ∧
      (scan r1 r2 u).warnings = (scan r1' r2' u).warnings :=
  ⟨rfl, rfl, rfl, rfl⟩

/-! ## Claim C2 -/

/-- C2: whenever the normalised input fails to parse, the scan bypasses
every rule and returns exactly the fallback result: level SUSPICIOUS,
score 30, the single invalid-format threat and its single warning. -/
theorem c2_invalid_fallback (rR rG : Nat) (raw : String)
    (h : parseUrl (normalizeInput raw) = none) :
    (scan rR rG raw).riskLevel = .suspicious ∧ (scan rR rG raw).score = 30 ∧
      (scan rR rG raw).threats = [invalidThreat] ∧
      (scan rR rG raw).warnings = [invalidWarning] := by
  have hf : finalState (normalizeInput raw) =
      ⟨[invalidThreat], [invalidWarning], .suspicious, 30⟩ := by
    unfold finalState
    rw [h]
    rfl
  refine ⟨?_, ?_, ?_, ?_⟩
  · show (finalState (normalizeInput raw)).riskLevel = _
    rw [hf]
  · show (finalState (normalizeInput raw)).score = _
    rw [hf]
  · show (finalState (normalizeInput raw)).threats = _
    rw [hf]
  · show (finalState (normalizeInput raw)).warnings = _
    rw [hf]

/-- Witness for C2 at the spec's own example `scan("::::")`. -/
theorem c2_invalid_fallback_witness :
    parseUrl (normalizeInput "::::") = none ∧
      (scan 0 0 "::::").riskLevel = .suspicious ∧ (scan 0 0 "::::").score = 30 ∧
      (scan 0 0 "::::").threats = [invalidThreat] ∧
      (scan 0 0 "::::").warnings = [invalidWarning] :=
  ⟨by decide, c2_invalid_fallback 0 0 "::::" (by decide)⟩

/-! ## Per-rule lemmas: which rules can only raise the risk level -/

theorem misspellStep_mono (d : String) (st : ScanState) (e : MisspellEntry) :
    st.riskLevel.toNat ≤ (misspellStep d st e).riskLevel.toNat :=
  foldl_mono_level _ _
    (fun st w _ => condEmit_mono _ _ _ _ _ st applyLevel_toDangerous_mono) st

theorem ruleMisspelling_mono (d : String) (st : ScanState) :
    st.riskLevel.toNat ≤ (ruleMisspelling d st).riskLevel.toNat :=
  foldl_mono_level _ _ (fun st e _ => misspellStep_mono d st e) st

theorem ruleHomograph_mono (d : String) (st : ScanState) :
    st.riskLevel.toNat ≤ (ruleHomograph d st).riskLevel.toNat :=
  foldl_mono_level _ _
    (fun st b _ => condEmit_mono b _ _ _ _ st applyLevel_toDangerous_mono) st

theorem ruleHttps_mono (u : String) (st : ScanState) :
    st.riskLevel.toNat ≤ (ruleHttps u st).riskLevel.toNat :=
  condEmit_mono _ _ _ _ _ st applyLevel_esc_mono

theorem ruleSubdomain_mono (d : String) (st : ScanState) :
    st.riskLevel.toNat ≤ (ruleSubdomain d st).riskLevel.toNat :=
  foldl_mono_level _ _
    (fun st b _ => condEmit_mono b _ _ _ _ st applyLevel_toDangerous_mono) st

theorem ruleLength_mono (f : String) (st : ScanState) :
    st.riskLevel.toNat ≤ (ruleLength f st).riskLevel.toNat := by
  unfold ruleLength
  split
  · split
    · simpa [emit] using applyLevel_esc_mono st.riskLevel
    · exact le_refl _
  · exact le_refl _

theorem ruleNewDomain_mono (d : String) (st : ScanState) :
    st.riskLevel.toNat ≤ (ruleNewDomain d st).riskLevel.toNat :=
  foldl_mono_level _ _
    (fun st b _ => condEmit_mono b _ _ _ _ st applyLevel_esc_mono) st

theorem ruleDownload_mono (f : String) (st : ScanState) :
    st.riskLevel.toNat ≤ (ruleDownload f st).riskLevel.toNat :=
  foldl_mono_level _ _
    (fun st b _ => condEmit_mono b _ _ _ _ st applyLevel_toDangerous_mono) st

theorem ruleBrand_mono (d : String) (st : ScanState) :
    st.riskLevel.toNat ≤ (ruleBrand d st).riskLevel.toNat :=
  foldl_mono_level _ _
    (fun st b _ => condEmit_mono _ _ _ _ _ st applyLevel_toDangerous_mono) st

theorem ruleTld_mono (d : String) (st : ScanState) :
    st.riskLevel.toNat ≤ (ruleTld d st).riskLevel.toNat := by
  unfold ruleTld
  split
  · simpa [emit] using applyLevel_esc_mono st.riskLevel
  · exact le_refl _

theorem ruleShortener_mono (d : String) (st : ScanState) :
    st.riskLevel.toNat ≤ (ruleShortener d st).riskLevel.toNat := by
  unfold ruleShortener
  split
  · simpa [emit] using applyLevel_esc_mono st.riskLevel
  · exact le_refl _

theorem ruleKeywords_mono (d p : String) (st : ScanState) :
    st.riskLevel.toNat ≤ (ruleKeywords d p st).riskLevel.toNat := by
  unfold ruleKeywords
  split
  · simpa [emit] using applyLevel_toDangerous_mono st.riskLevel
  · exact le_refl _

/-- When none of its six patterns matches, the open-redirect rule leaves
the state untouched. -/
theorem ruleRedirect_id (f : String)
    (h : (redirectTests f).any (fun b => b) = false) (st : ScanState) :
    ruleRedirect f st = st := by
  refine foldl_eq_measure (fun s => s) _ _ (fun st b hb => ?_) st
  have hb' : b = false := by
    rw [List.any_eq_false] at h
    simpa using h b hb
  simp [hb']

/-- When the dotted-quad test fails, the IP rule leaves the state untouched. -/
theorem ruleIp_id (d : String) (h : ipTest d = false) (st : ScanState) :
    ruleIp d st = st := by
  simp [ruleIp, h]

/-- When the host has no `xn--` marker, the punycode rule leaves the state
untouched. -/
theorem rulePunycode_id (d : String) (h : strContains d "xn--" = false)
    (st : ScanState) : rulePunycode d st = st := by
  simp [rulePunycode, h]

theorem battery_mono (u d f p : String)
    (hr : (redirectTests f).any (fun b => b) = false)
    (hip : ipTest d = false)
    (hpc : strContains d "xn--" = false) :
    ∀ g ∈ battery u d f p, ∀ st : ScanState,
      st.riskLevel.toNat ≤ (g st).riskLevel.toNat := by
  intro g hg st
  simp only [battery, List.mem_cons, List.not_mem_nil, or_false] at hg
  rcases hg with h|h|h|h|h|h|h|h|h|h|h|h|h|h <;> subst h
  · exact ruleMisspelling_mono d st
  · exact ruleHomograph_mono d st
  · exact ruleHttps_mono u st
  · exact ruleSubdomain_mono d st
  · exact ruleLength_mono f st
  · rw [ruleRedirect_id f hr st]
  · exact ruleNewDomain_mono d st
  · exact ruleDownload_mono f st
  · exact ruleBrand_mono d st
  · exact ruleTld_mono d st
  · exact ruleShortener_mono d st
  · exact ruleKeywords_mono d p st
  · rw [ruleIp_id d hip st]
  · rw [rulePunycode_id d hpc st]

/-! ## Claim C1 -/

/-- C1 (amended): the risk level is monotonically non-decreasing along the
rule battery on every input on which none of the open-redirect, IP-literal
and punycode rules fires; those three rules assign SUSPICIOUS
unconditionally and are the only rules that can lower an already-reached
DANGEROUS level. -/
theorem c1_level_monotone_amended (u : String) (o : UrlObj)
    (hparse : parseUrl u = some o)
    (hr : (redirectTests (toLowerStr u)).any (fun b => b) = false)
    (hip : ipTest (toLowerStr o.hostname) = false)
    (hpc : strContains (toLowerStr o.hostname) "xn--" = false) :
    ∀ i j, i ≤ j →
      (runPrefix u o i).riskLevel.toNat ≤ (runPrefix u o j).riskLevel.toNat := by
  intro i j hij
  unfold runPrefix
  conv_rhs =>
    rw [← List.take_append_drop i
      ((battery u (toLowerStr o.hostname) (toLowerStr u) (toLowerStr o.pathname)).take j)]
  rw [List.foldl_append, List.take_take, Nat.min_eq_left hij]
  refine foldl_mono_level (fun st (g : ScanState → ScanState) => g st) _
    (fun st g hg => ?_) _
  have hgL : g ∈ battery u (toLowerStr o.hostname) (toLowerStr u) (toLowerStr o.pathname) :=
    List.take_subset _ _ (List.drop_subset _ _ hg)
  exact battery_mono u _ _ _ hr hip hpc g hgL st

/-- Witness for the amended C1 on a URL on which no rule fires at all. -/
theorem c1_level_monotone_amended_witness :
    (parseUrl "https://example.org/about" =
        some ⟨"https:", "example.org", "", "/about"⟩ ∧
      (redirectTests (toLowerStr "https://example.org/about")).any (fun b => b) = false ∧
      ipTest (toLowerStr "example.org") = false ∧
      strContains (toLowerStr "example.org") "xn--" = false ∧ 0 ≤ 14) ∧
      (runPrefix "https://example.org/about" ⟨"https:", "example.org", "", "/about"⟩
          0).riskLevel.toNat ≤
        (runPrefix "https://example.org/about" ⟨"https:", "example.org", "", "/about"⟩
          14).riskLevel.toNat :=
  ⟨⟨by decide, by decide, by decide, by decide, by decide⟩,
    c1_level_monotone_amended "https://example.org/about"
      ⟨"https:", "example.org", "", "/about"⟩ (by decide) (by decide) (by decide)
      (by decide) 0 14 (by decide)⟩

/-- C1 (counterexample): on `https://xn--gooogle.com/` the misspelling rule
(first in the battery) raises the level to DANGEROUS, yet the punycode rule
later assigns SUSPICIOUS, so the level is not monotonically non-decreasing
and a DANGEROUS level is lowered by a later-firing rule. -/
theorem c1_counterexample :
    parseUrl "https://xn--gooogle.com/" =
        some ⟨"https:", "xn--gooogle.com", "", "/"⟩ ∧
      (runPrefix "https://xn--gooogle.com/" ⟨"https:", "xn--gooogle.com", "", "/"⟩
          1).riskLevel = .dangerous ∧
      (runPrefix "https://xn--gooogle.com/" ⟨"https:", "xn--gooogle.com", "", "/"⟩
          14).riskLevel = .suspicious ∧
      (analyzeUrl 0 0 "https://xn--gooogle.com/").riskLevel = .suspicious ∧
      misspellThreat "gooogle" "google" ∈
        (analyzeUrl 0 0 "https://xn--gooogle.com/").threats := by
  refine ⟨by decide, by decide, by decide, by decide, by decide⟩

/-! ## Claim C4 -/

/-- C4: `scan("https://secure-paypal-login.tk/verify?confirm=1")` produces,
in one result, the brand-impersonation finding (host contains "paypal" but
is no legitimate PayPal domain), the suspicious-TLD finding (".tk") and the
phishing-keyword finding (three distinct keywords across host and path),
and the final risk level is DANGEROUS. -/
theorem c4_paypal_tk_findings :
    (scan 0 0 "https://secure-paypal-login.tk/verify?confirm=1").threats =
        [brandThreat "paypal", tldThreat ".tk",
          keywordThreat ["verify", "secure", "login"]] ∧
      (scan 0 0 "https://secure-paypal-login.tk/verify?confirm=1").riskLevel =
        .dangerous := by
  decide

/-! ## Claim C5 -/

/-- C5: `scan("https://gooogle.com/login")` returns DANGEROUS, its threats
include the misspelling finding identifying "gooogle" as a misspelling of
google, and its final score is at most 30. -/
theorem c5_gooogle_login :
    (scan 0 0 "https://gooogle.com/login").riskLevel = .dangerous ∧
      misspellThreat "gooogle" "google" ∈ (scan 0 0 "https://gooogle.com/login").threats ∧
      (scan 0 0 "https://gooogle.com/login").score ≤ 30 := by
  decide

/-! ## Claim C7 -/

/-- C7 (counterexample): the raw input " a" does not start with "http://"
or "https://", yet scanning it does not agree with scanning
"https:// a": `handleScan` trims the bare input before prefixing, so the
first becomes `https://a` (SAFE, score 100) while the prefixed string
keeps its inner space, fails URL parsing and lands on the fallback
(SUSPICIOUS, score 30). -/
theorem c7_counterexample :
    strStarts " a" "http://" = false ∧ strStarts " a" "https://" = false ∧
      (scan 0 0 " a").riskLevel = .safe ∧ (scan 0 0 " a").score = 100 ∧
      (scan 0 0 ("https://" ++ " a")).riskLevel = .suspicious ∧
      (scan 0 0 ("https://" ++ " a")).score = 30 := by
  decide

/-- C7 (amended): for every raw input string on which trimming is the
identity (no surrounding whitespace, both bare and prefixed) and which
does not start with "http://" or "https://", scanning it returns the very
same `ScanResult` as scanning the string with "https://" prepended. -/
theorem c7_roundtrip_amended (r1 r2 : Nat) (s : String)
    (h1 : strTrim s = s)
    (h2 : strTrim ("https://" ++ s) = "https://" ++ s)
    (h3 : strStarts s "http://" = false)
    (h4 : strStarts s "https://" = false) :
    scan r1 r2 s = scan r1 r2 ("https://" ++ s) := by
  have hstart : strStarts ("https://" ++ s) "https://" = true := by
    show ("https://".data.isPrefixOf ("https://" ++ s).data) = true
    rw [String.data_append]
    rw [ List.isPrefixOf_iff_prefix]
    exact ⟨s.data, rfl⟩
  have hn : normalizeInput s = normalizeInput ("https://" ++ s) := by
    unfold normalizeInput
    rw [h1, h2]
    simp [h3, h4, hstart]
  show analyzeUrl r1 r2 (normalizeInput s) = analyzeUrl r1 r2 (normalizeInput ("https://" ++ s))
  rw [hn]

/-- Witness for the amended C7 at the spec's round-trip example. -/
theorem c7_roundtrip_amended_witness :
    (strTrim "example.com" = "example.com" ∧
      strTrim ("https://" ++ "example.com") = "https://" ++ "example.com" ∧
      strStarts "example.com" "http://" = false ∧
      strStarts "example.com" "https://" = false) ∧
      scan 0 0 "example.com" = scan 0 0 ("https://" ++ "example.com") :=
  ⟨⟨by decide, by decide, by decide, by decide⟩,
    c7_roundtrip_amended 0 0 "example.com" (by decide) (by decide) (by decide) (by decide)⟩

/-! ## Claim C10 -/

/-- C10 (counterexample): at the claim's example `scan("https://facebook.com")`
the final score is 0, not 100 - 70 = 30: besides the misspelling rule (the
dictionary lists "facebook" among its own misspelled entries), the
file-download rule also fires, because the full URL ends in ".com", which
appears in the executable-extension list. -/
theorem c10_counterexample :
    (scan 0 0 "https://facebook.com").score = 0 ∧
      (scan 0 0 "https://facebook.com").threats =
        [misspellThreat "facebook" "facebook", downloadThreat] := by
  decide

/-- C10 (amended): the misspelling dictionary lists the correctly spelled
brand names "facebook" and "amazon" among their own misspelled entries, so
for a host equal to a brand's legitimate domain the misspelling rule fires
even though the brand-impersonation rule correctly stays silent; at
`scan("https://facebook.com/")` (where the full URL does not additionally
end in ".com", so the file-download rule stays silent too) the result is
DANGEROUS with score 100 - 70 = 30, while at the path-less
`scan("https://facebook.com")` the download rule also fires and the score
is 0. -/
theorem c10_dictionary_self_listing :
    (∃ e ∈ commonMisspellings, e.correct = "facebook" ∧ "facebook" ∈ e.misspelled) ∧
      (∃ e ∈ commonMisspellings, e.correct = "amazon" ∧ "amazon" ∈ e.misspelled) ∧
      (scan 0 0 "https://facebook.com/").riskLevel = .dangerous ∧
      (scan 0 0 "https://facebook.com/").score = 30 ∧
      (scan 0 0 "https://facebook.com/").threats =
        [misspellThreat "facebook" "facebook"] ∧
      brandThreat "facebook" ∉ (scan 0 0 "https://facebook.com/").threats ∧
      (scan 0 0 "https://facebook.com").riskLevel = .dangerous ∧
      (scan 0 0 "https://facebook.com").score = 0 := by
  refine ⟨by decide, by decide, by decide, by decide, by decide, by decide, by decide, by decide⟩

/-! ## Substring reasoning for the typosquatting flag -/

theorem strContains_iff (s pat : String) :
    strContains s pat = true ↔ pat.data <:+: s.data := by
  unfold strContains
  rw [List.any_eq_true]
  constructor
  · rintro ⟨t, ht, hpre⟩
    rw [ List.isPrefixOf_iff_prefix] at hpre
    exact List.infix_iff_prefix_suffix.2 ⟨t, hpre, (List.mem_tails t s.data).1 ht⟩
  · intro h
    obtain ⟨t, hpre, hsuf⟩ := List.infix_iff_prefix_suffix.1 h
    exact ⟨t, (List.mem_tails t s.data).2 hsuf, (List.isPrefixOf_iff_prefix).2 hpre⟩

theorem strContains_eq_false (s pat : String) (h : ¬ pat.data <:+: s.data) :
    strContains s pat = false := by
  cases hb : strContains s pat
  · rfl
  · exact absurd ((strContains_iff s pat).1 hb) h

theorem hasTypoMark_eq_false (t : String)
    (h1 : ¬ ("typosquatting".data <:+: t.data))
    (h2 : ¬ ("impersonation".data <:+: t.data)) : hasTypoMark t = false := by
  unfold hasTypoMark
  rw [strContains_eq_false t "typosquatting" h1, strContains_eq_false t "impersonation" h2]
  rfl


/-- An infix of a concatenation lies in the left part, lies in the right
part, or splits across the boundary into a non-empty suffix of the left
part and a non-empty prefix of the right part. -/
theorem infix_append_cases {α : Type} {pat l1 l2 : List α} (h : pat <:+: l1 ++ l2) :
    pat <:+: l1 ∨ pat <:+: l2 ∨
      ∃ p1 p2, pat = p1 ++ p2 ∧ p1 ≠ [] ∧ p2 ≠ [] ∧ p1 <:+ l1 ∧ p2 <+: l2 := by
  obtain ⟨s, t, hst⟩ := h
  rw [List.append_assoc] at hst
  by_cases hA : s.length + pat.length ≤ l1.length
  · left
    refine ⟨s, t.take (l1.length - s.length - pat.length), ?_⟩
    have h1 : l1 = (l1 ++ l2).take l1.length := (List.take_left l1 l2).symm
    rw [← hst] at h1
    have hk : l1.length = s.length + (pat.length + (l1.length - s.length - pat.length)) := by
      omega
    rw [hk, List.take_append, List.take_append] at h1
    rw [List.append_assoc]
    exact h1.symm
  · by_cases hB : l1.length ≤ s.length
    · right; left
      refine ⟨s.drop l1.length, t, ?_⟩
      have h2 : l2 = (l1 ++ l2).drop l1.length := (List.drop_left l1 l2).symm
      rw [← hst, List.drop_append_of_le_length hB] at h2
      rw [List.append_assoc]
      exact h2.symm
    · right; right
      have hk2 : l1.length - s.length < pat.length := by omega
      refine ⟨pat.take (l1.length - s.length), pat.drop (l1.length - s.length),
        (List.take_append_drop _ pat).symm, ?_, ?_, ?_, ?_⟩
      · intro hnil
        have h0 : (List.take (l1.length - s.length) pat).length = 0 := by rw [hnil]; rfl
        rw [List.length_take] at h0
        omega
      · intro hnil
        have h0 : (List.drop (l1.length - s.length) pat).length = 0 := by rw [hnil]; rfl
        rw [List.length_drop] at h0
        omega
      · refine ⟨s, ?_⟩
        have h1 : l1 = (l1 ++ l2).take l1.length := (List.take_left l1 l2).symm
        rw [← hst] at h1
        have hk : l1.length = s.length + (l1.length - s.length) := by omega
        rw [hk, List.take_append,
          List.take_append_of_le_length (le_of_lt hk2)] at h1
        exact h1.symm
      · refine ⟨t, ?_⟩
        have h2 : l2 = (l1 ++ l2).drop l1.length := (List.drop_left l1 l2).symm
        rw [← hst] at h2
        have hk : l1.length = s.length + (l1.length - s.length) := by omega
        rw [hk, List.drop_append,
          List.drop_append_of_le_length (le_of_lt hk2)] at h2
        exact h2.symm

/-- No infix can cross an append boundary whose right side starts with a
character the pattern avoids. -/
theorem not_infix_append_right_head {α : Type} {pat a b : List α} {c : α}
    (ha : ¬ pat <:+: a) (hb : ¬ pat <:+: b)
    (hc : b.head? = some c) (hcp : c ∉ pat) : ¬ pat <:+: a ++ b := by
  intro h
  rcases infix_append_cases h with h1 | h2 | ⟨p1, p2, heq, _, hp2, _, hp⟩
  · exact ha h1
  · exact hb h2
  · obtain ⟨t, rfl⟩ := hp
    cases p2 with
    | nil => exact hp2 rfl
    | cons d r =>
      have hdc : d = c := by simpa using hc
      refine hcp ?_
      rw [heq, ← hdc]
      exact List.mem_append_right p1 (List.mem_cons_self d r)

/-- No infix can cross an append boundary whose left side ends with a
character the pattern avoids. -/
theorem not_infix_append_left_last {α : Type} {pat a b : List α} {c : α}
    (ha : ¬ pat <:+: a) (hb : ¬ pat <:+: b)
    (hc : a.getLast? = some c) (hcp : c ∉ pat) : ¬ pat <:+: a ++ b := by
  intro h
  rcases infix_append_cases h with h1 | h2 | ⟨p1, p2, heq, hp1, _, hs, _⟩
  · exact ha h1
  · exact hb h2
  · obtain ⟨t, rfl⟩ := hs
    rw [List.getLast?_append] at hc
    cases hgl : p1.getLast? with
    | none => exact hp1 (List.getLast?_eq_none_iff.1 hgl)
    | some d =>
      rw [hgl] at hc
      have hdc : d = c := by simpa using hc
      refine hcp ?_
      rw [heq, ← hdc]
      exact List.mem_append_left p2 (List.mem_of_getLast?_eq_some hgl)

theorem not_infix_commaSpace (pat : List Char) (hne : pat ≠ [])
    (hcomma : ',' ∉ pat) (hspace : ' ' ∉ pat) : ¬ pat <:+: [',', ' '] := by
  intro h
  cases pat with
  | nil => exact hne rfl
  | cons c r =>
    have hcm : c ∈ [',', ' '] := h.subset (List.mem_cons_self c r)
    rcases List.mem_cons.1 hcm with h1 | h1
    · exact hcomma (h1 ▸ List.mem_cons_self c r)
    · have hce : c = ' ' := by simpa using h1
      exact hspace (hce ▸ List.mem_cons_self c r)

/-- A pattern containing neither a comma nor a space is an infix of a
comma-and-space-joined list only when it is an infix of one part. -/
theorem not_infix_joinComma (pat : List Char) (hne : pat ≠ [])
    (hcomma : ',' ∉ pat) (hspace : ' ' ∉ pat) :
    ∀ parts : List String, (∀ s ∈ parts, ¬ pat <:+: s.data) →
      ¬ pat <:+: (joinComma parts).data
  | [], _ => by
    intro h
    rw [show (joinComma []).data = [] from rfl] at h
    exact hne (List.infix_nil.1 h)
  | [s], hp => by
    intro h
    exact hp s (List.mem_cons_self s []) h
  | s :: s' :: rest, hp => by
    have hJ : ¬ pat <:+: (joinComma (s' :: rest)).data :=
      not_infix_joinComma pat hne hcomma hspace (s' :: rest)
        (fun x hx => hp x (List.mem_cons_of_mem s hx))
    have hdata : (joinComma (s :: s' :: rest)).data
        = s.data ++ ([',', ' '] ++ (joinComma (s' :: rest)).data) := by
      show (s ++ ", " ++ joinComma (s' :: rest)).data = _
      rw [String.data_append, String.data_append, List.append_assoc]
    rw [hdata]
    refine not_infix_append_right_head (hp s (List.mem_cons_self s _)) ?_ rfl hcomma
    exact not_infix_append_left_last (not_infix_commaSpace pat hne hcomma hspace) hJ
      rfl hspace

/-! ## The dynamic threat messages avoid the flag substrings -/

theorem digitCh_mem (d : Nat) : digitCh d ∈ decimalDigits := by
  unfold digitCh
  split <;> decide

theorem natDigitsAux_subset :
    ∀ (fuel n : Nat) (acc : List Char), (∀ c ∈ acc, c ∈ decimalDigits) →
      ∀ c ∈ natDigitsAux fuel n acc, c ∈ decimalDigits
  | 0, _, _, hacc => hacc
  | fuel + 1, n, acc, hacc => by
    unfold natDigitsAux
    split
    · intro c hc
      rcases List.mem_cons.1 hc with h | h
      · exact h ▸ digitCh_mem n
      · exact hacc c h
    · exact natDigitsAux_subset fuel (n / 10) _ (fun c hc => by
        rcases List.mem_cons.1 hc with h | h
        · exact h ▸ digitCh_mem (n % 10)
        · exact hacc c h)

theorem natToStr_digits (n : Nat) : ∀ c ∈ (natToStr n).data, c ∈ decimalDigits :=
  natDigitsAux_subset (n + 1) n [] (by intro c hc; cases hc)

/-- The two flag substrings both contain the letter i, so neither is an
infix of an all-digit block. -/
theorem not_infix_digits {pat : List Char} (hi : 'i' ∈ pat) (n : Nat) :
    ¬ pat <:+: (natToStr n).data := by
  intro h
  have : 'i' ∈ decimalDigits := natToStr_digits n 'i' (h.subset hi)
  simp [decimalDigits] at this

theorem lengthThreat_no_typo_aux {pat : List Char} (hi : 'i' ∈ pat)
    (hspace : ' ' ∉ pat)
    (hopen : '(' ∉ pat)
    (hA : ¬ pat <:+: ("🧩 Unusually long or obfuscated URL detected (" : String).data)
    (hB : ¬ pat <:+: (" characters)" : String).data) (n : Nat) :
    ¬ pat <:+: (lengthThreat n).data := by
  have hdata : (lengthThreat n).data
      = (("🧩 Unusually long or obfuscated URL detected (" : String).data ++
          (natToStr n).data) ++ (" characters)" : String).data := by
    show (("🧩 Unusually long or obfuscated URL detected (" ++ natToStr n) ++
        " characters)").data = _
    rw [String.data_append, String.data_append]
  rw [hdata]
  refine not_infix_append_right_head ?_ hB rfl hspace
  exact not_infix_append_left_last hA (not_infix_digits hi n) rfl hopen

theorem lengthThreat_no_typo (n : Nat) : hasTypoMark (lengthThreat n) = false := by
  refine hasTypoMark_eq_false _ ?_ ?_
  · exact lengthThreat_no_typo_aux (by decide) (by decide) (by decide)
      (by decide) (by decide) n
  · exact lengthThreat_no_typo_aux (by decide) (by decide) (by decide)
      (by decide) (by decide) n

theorem phishingKeywords_no_typo1 :
    ∀ k ∈ phishingKeywords, ¬ (("typosquatting" : String).data <:+: k.data) := by
  decide

theorem phishingKeywords_no_typo2 :
    ∀ k ∈ phishingKeywords, ¬ (("impersonation" : String).data <:+: k.data) := by
  decide

theorem keywordThreat_no_typo_aux {pat : List Char} (hne : pat ≠ [])
    (hcomma : ',' ∉ pat) (hspace : ' ' ∉ pat)
    (hA : ¬ pat <:+: ("🚨 Multiple urgent keywords detected: " : String).data)
    (l : List String) (hl : ∀ k ∈ l, ¬ pat <:+: k.data) :
    ¬ pat <:+: (keywordThreat l).data := by
  have hdata : (keywordThreat l).data
      = ("🚨 Multiple urgent keywords detected: " : String).data ++
          (joinComma (l.take 3)).data := by
    show (("🚨 Multiple urgent keywords detected: " ++ joinComma (l.take 3))).data = _
    rw [String.data_append]
  rw [hdata]
  refine not_infix_append_left_last hA ?_ rfl hspace
  exact not_infix_joinComma pat hne hcomma hspace (l.take 3)
    (fun k hk => hl k (List.mem_of_mem_take hk))

theorem keywordThreat_no_typo (l : List String)
    (hl : ∀ k ∈ l, k ∈ phishingKeywords) :
    hasTypoMark (keywordThreat l) = false := by
  refine hasTypoMark_eq_false _ ?_ ?_
  · exact keywordThreat_no_typo_aux (by decide) (by decide) (by decide) (by decide) l
      (fun k hk => phishingKeywords_no_typo1 k (hl k hk))
  · exact keywordThreat_no_typo_aux (by decide) (by decide) (by decide) (by decide) l
      (fun k hk => phishingKeywords_no_typo2 k (hl k hk))

/-! ## Per-rule lemmas: which rules can set the typosquatting flag -/

theorem misspell_msgs_no_typo :
    ∀ e ∈ commonMisspellings, ∀ w ∈ e.misspelled,
      hasTypoMark (misspellThreat w e.correct) = false := by
  decide

theorem misspellStep_anyTypo (d : String) (st : ScanState) (e : MisspellEntry)
    (he : e ∈ commonMisspellings) :
    (misspellStep d st e).threats.any hasTypoMark = st.threats.any hasTypoMark :=
  foldl_eq_measure (fun s => s.threats.any hasTypoMark) _ _
    (fun st w hw => condEmit_anyTypo _ _ _ _ _ st (misspell_msgs_no_typo e he w hw)) st

theorem ruleMisspelling_anyTypo (d : String) (st : ScanState) :
    (ruleMisspelling d st).threats.any hasTypoMark = st.threats.any hasTypoMark :=
  foldl_eq_measure (fun s => s.threats.any hasTypoMark) _ _
    (fun st e he => misspellStep_anyTypo d st e he) st

theorem ruleHomograph_anyTypo (d : String) (st : ScanState) :
    (ruleHomograph d st).threats.any hasTypoMark = st.threats.any hasTypoMark :=
  foldl_eq_measure (fun s => s.threats.any hasTypoMark) _ _
    (fun st b _ => condEmit_anyTypo b _ _ _ _ st (by decide)) st

theorem ruleHttps_anyTypo (u : String) (st : ScanState) :
    (ruleHttps u st).threats.any hasTypoMark = st.threats.any hasTypoMark :=
  condEmit_anyTypo _ _ _ _ _ st (by decide)

theorem ruleSubdomain_anyTypo (d : String) (st : ScanState) :
    (ruleSubdomain d st).threats.any hasTypoMark = st.threats.any hasTypoMark :=
  foldl_eq_measure (fun s => s.threats.any hasTypoMark) _ _
    (fun st b _ => condEmit_anyTypo b _ _ _ _ st (by decide)) st

theorem ruleLength_anyTypo (f : String) (st : ScanState) :
    (ruleLength f st).threats.any hasTypoMark = st.threats.any hasTypoMark := by
  unfold ruleLength
  split
  · split
    · simp [emit, lengthThreat_no_typo]
    · rfl
  · rfl

theorem ruleRedirect_anyTypo (f : String) (st : ScanState) :
    (ruleRedirect f st).threats.any hasTypoMark = st.threats.any hasTypoMark :=
  foldl_eq_measure (fun s => s.threats.any hasTypoMark) _ _
    (fun st b _ => condEmit_anyTypo b _ _ _ _ st (by decide)) st

theorem ruleNewDomain_anyTypo (d : String) (st : ScanState) :
    (ruleNewDomain d st).threats.any hasTypoMark = st.threats.any hasTypoMark :=
  foldl_eq_measure (fun s => s.threats.any hasTypoMark) _ _
    (fun st b _ => condEmit_anyTypo b _ _ _ _ st (by decide)) st

theorem ruleDownload_anyTypo (f : String) (st : ScanState) :
    (ruleDownload f st).threats.any hasTypoMark = st.threats.any hasTypoMark :=
  foldl_eq_measure (fun s => s.threats.any hasTypoMark) _ _
    (fun st b _ => condEmit_anyTypo b _ _ _ _ st (by decide)) st

theorem tld_msgs_no_typo : ∀ t ∈ suspiciousTlds, hasTypoMark (tldThreat t) = false := by
  decide

theorem ruleTld_anyTypo (d : String) (st : ScanState) :
    (ruleTld d st).threats.any hasTypoMark = st.threats.any hasTypoMark := by
  unfold ruleTld
  cases hf : suspiciousTlds.find? (fun t => strEnds d t) with
  | none => rfl
  | some t =>
    have ht : t ∈ suspiciousTlds := List.mem_of_find?_eq_some hf
    simp [emit, tld_msgs_no_typo t ht]

theorem ruleShortener_anyTypo (d : String) (st : ScanState) :
    (ruleShortener d st).threats.any hasTypoMark = st.threats.any hasTypoMark := by
  unfold ruleShortener
  cases hf : urlShorteners.find? (fun sh => strContains d sh) with
  | none => rfl
  | some sh => simp [emit, (by decide : hasTypoMark shortenerThreat = false)]

theorem ruleKeywords_anyTypo (d p : String) (st : ScanState) :
    (ruleKeywords d p st).threats.any hasTypoMark = st.threats.any hasTypoMark := by
  unfold ruleKeywords
  split
  · have hk : hasTypoMark (keywordThreat (foundKeywords d p)) = false :=
      keywordThreat_no_typo _ (fun k hk => (List.mem_filter.1 hk).1)
    simp [emit, hk]
  · rfl

theorem ruleIp_anyTypo (d : String) (st : ScanState) :
    (ruleIp d st).threats.any hasTypoMark = st.threats.any hasTypoMark :=
  condEmit_anyTypo _ _ _ _ _ st (by decide)

theorem rulePunycode_anyTypo (d : String) (st : ScanState) :
    (rulePunycode d st).threats.any hasTypoMark = st.threats.any hasTypoMark :=
  condEmit_anyTypo _ _ _ _ _ st (by decide)

theorem brand_msgs_typo : ∀ b ∈ brandPatterns, hasTypoMark (brandThreat b.brand) = true := by
  decide

theorem brand_fold_any (d : String) :
    ∀ (l : List BrandPattern), (∀ b ∈ l, hasTypoMark (brandThreat b.brand) = true) →
      ∀ st : ScanState,
        ((l.foldl (fun st b =>
            if brandFires d b then
              emit (brandThreat b.brand) (brandWarning b.brand) .toDangerous b.severity st
            else st) st).threats.any hasTypoMark)
          = (st.threats.any hasTypoMark || l.any (fun b => brandFires d b))
  | [], _, st => by simp
  | b :: l, h, st => by
    rw [List.foldl_cons,
      brand_fold_any d l (fun b' hb' => h b' (List.mem_cons_of_mem b hb')) _]
    cases hf : brandFires d b
    · simp [hf]
    · simp [hf, emit, h b (List.mem_cons_self b l), Bool.or_assoc]

theorem ruleBrand_anyTypo (d : String) (st : ScanState) :
    (ruleBrand d st).threats.any hasTypoMark
      = (st.threats.any hasTypoMark || brandPatterns.any (fun b => brandFires d b)) :=
  brand_fold_any d brandPatterns brand_msgs_typo st

theorem addSentinel_anyTypo (st : ScanState) :
    (addSentinel st).threats.any hasTypoMark = st.threats.any hasTypoMark := by
  unfold addSentinel
  split
  · simp [(by decide : hasTypoMark noThreatMsg = false)]
  · rfl

/-- The battery sets the typosquatting flag exactly when the
brand-impersonation rule fires on the lowercased host. -/
theorem battery_anyTypo (u d f p : String) :
    (((battery u d f p).foldl (fun st g => g st) initState).threats.any hasTypoMark)
      = brandPatterns.any (fun b => brandFires d b) := by
  simp only [battery, List.foldl_cons, List.foldl_nil]
  rw [rulePunycode_anyTypo, ruleIp_anyTypo, ruleKeywords_anyTypo, ruleShortener_anyTypo,
    ruleTld_anyTypo, ruleBrand_anyTypo, ruleDownload_anyTypo, ruleNewDomain_anyTypo,
    ruleRedirect_anyTypo, ruleLength_anyTypo, ruleSubdomain_anyTypo, ruleHttps_anyTypo,
    ruleHomograph_anyTypo, ruleMisspelling_anyTypo]
  rfl

/-! ## Claim C6 -/

/-- C6 (counterexample): scanning `https://gooogle.com/` produces exactly
one finding, of the misspelling category, yet `details.typosquatting` is
false — the flag tests the threat messages for the substrings
"typosquatting" and "impersonation", which misspelling messages contain
neither, so a misspelling finding does not set the flag. -/
theorem c6_counterexample :
    (analyzeUrl 0 0 "https://gooogle.com/").threats =
        [misspellThreat "gooogle" "google"] ∧
      (analyzeUrl 0 0 "https://gooogle.com/").details.typosquatting = false := by
  decide

/-- C6 (amended): `details.typosquatting` is true if and only if at least
one finding of the brand-impersonation category fired (the misspelling
rule does not contribute): on parse failure the flag is false, and on a
successful parse it equals the boolean saying whether some brand pattern
fires on the lowercased host. -/
theorem c6_typosquatting_amended (rR rG : Nat) (u : String) :
    (analyzeUrl rR rG u).details.typosquatting =
      (match parseUrl u with
       | none => false
       | some o => brandPatterns.any (fun b => brandFires (toLowerStr o.hostname) b)) := by
  show (finalState u).threats.any hasTypoMark = _
  unfold finalState
  cases hp : parseUrl u with
  | none => exact rfl
  | some o =>
    rw [addSentinel_anyTypo]
    exact battery_anyTypo u (toLowerStr o.hostname) (toLowerStr u) (toLowerStr o.pathname)
